import Mathlib

/-!
Verification of the Budget Alerting & Expense Analysis Engine of the
Expense-management-system repository.

The definitions below are shallow embeddings of the JavaScript source in
`backend/src/services/aiService.js` / `budgetService.js`:

* `lev` / `calculateTextSimilarity` embed `AIService.calculateTextSimilarity`
  (the classic dynamic-programming Levenshtein matrix, expressed by its
  defining recurrence on prefixes/suffixes);
* `duplicateFinding` embeds the duplicate check of
  `AIService.detectSuspiciousExpenses`;
* `detectOutliers` embeds its IQR outlier check;
* `suggestStep` / `fallbackCategorySuggestion` embed
  `AIService.fallbackCategorySuggestion`;
* `checkBudgetAlerts` / `runBudgetAlerts` embed
  `BudgetService.checkBudgetAlerts` (the email send is modelled by a
  throw-oracle `ok : AlertType → Bool`: `false` stands for the awaited call
  throwing, which lands in the source's catch block before the flag
  assignment; since `emailService.sendBudgetAlert` catches all delivery
  errors internally and always resolves — `{success: false}` on failure, a
  value the caller ignores — every real execution, delivery failure
  included, uses the constantly-true oracle `notifierOk`);
* `avgDailySpending` embeds the daily-average computation of
  `BudgetService.calculateBudgetForecast`;
* `calculateSpendingTrend` embeds `BudgetService.calculateSpendingTrend`.

JavaScript numbers are modelled by `ℚ` (all computations involved are exact
on the inputs considered), dates by integer epoch-milliseconds, and strings
by `List Char` (with `lowerChar` modelling `toLowerCase` on ASCII).
-/

/-- Levenshtein edit distance with unit costs: the value `matrix[n][m]` of the
dynamic-programming matrix built by `AIService.calculateTextSimilarity`
(lines 446-464), expressed by the defining recurrence of that matrix:
`matrix[i][j] = min(matrix[i-1][j] + 1, matrix[i][j-1] + 1, matrix[i-1][j-1] + cost)`
with `cost = 0` iff the two current characters agree. -/
def lev : List Char → List Char → ℕ
  | [], ys => ys.length
  | x :: xs, [] => (x :: xs).length
  | x :: xs, y :: ys =>
      min (lev xs (y :: ys) + 1)
        (min (lev (x :: xs) ys + 1) (lev xs ys + (if x = y then 0 else 1)))
termination_by l1 l2 => l1.length + l2.length
decreasing_by
  all_goals simp [List.length_cons]
  all_goals omega

/-- Embedding of `AIService.calculateTextSimilarity` (lines 438-467): Levenshtein-based
similarity, `1 - distance / max(len1, len2)`, with the source's early returns
for empty inputs (`n === 0` and `m === 0` checks). -/
def calculateTextSimilarity (str1 str2 : List Char) : ℚ :=
  if str2.length = 0 then (if str1.length = 0 then 1 else 0)
  else if str1.length = 0 then 0
  else 1 - (lev str1 str2 : ℚ) / ((max str1.length str2.length : ℕ) : ℚ)

/-- ASCII fragment of JavaScript `String.prototype.toLowerCase`, applied
character-wise: uppercase ASCII letters are shifted down by 32, everything
else is unchanged (all inputs in this development are ASCII). -/
def lowerChar (c : Char) : Char :=
  if 'A' ≤ c ∧ c ≤ 'Z' then Char.ofNat (c.toNat + 32) else c

/-- The fields of an expense that `AIService.detectSuspiciousExpenses` reads:
`amount` (a JS number, modelled by `ℚ`), `date` (a JS `Date`, modelled by its
epoch-millisecond value), and `description`. -/
structure ExpenseRec where
  amount : ℚ
  date : ℤ
  description : List Char
deriving DecidableEq

/-- The `descSimilarity` value of `detectSuspiciousExpenses` (lines 379-382):
text similarity of the two lower-cased descriptions. -/
def descSimilarity (e1 e2 : ExpenseRec) : ℚ :=
  calculateTextSimilarity (e1.description.map lowerChar) (e2.description.map lowerChar)

/-- The `timeDiff` value of `detectSuspiciousExpenses` (line 378):
`Math.abs(exp1.date - exp2.date) / (1000 * 60 * 60 * 24)`, in days. -/
def timeDiffDays (e1 e2 : ExpenseRec) : ℚ :=
  |(e1.date : ℚ) - (e2.date : ℚ)| / (1000 * 60 * 60 * 24)

/-- The duplicate check of `detectSuspiciousExpenses` (lines 371-394) for one
pair of expenses: `some confidence` when the pair is recorded as a
`potential_duplicate` finding (amounts within `0.01`, dates within 7 days,
description similarity above `0.7`; the recorded confidence is the
similarity), `none` otherwise. -/
def duplicateFinding (e1 e2 : ExpenseRec) : Option ℚ :=
  if |e1.amount - e2.amount| < 1/100 then
    if timeDiffDays e1 e2 ≤ 7 ∧ 7/10 < descSimilarity e1 e2 then
      some (descSimilarity e1 e2)
    else none
  else none

/-- Insert a rational into an already ascending list, keeping it ascending. -/
def insertSorted (x : ℚ) : List ℚ → List ℚ
  | [] => [x]
  | y :: ys => if x ≤ y then x :: y :: ys else y :: insertSorted x ys

/-- Ascending sort of the amounts, embedding
`expenses.map(e => e.amount).sort((a, b) => a - b)` (line 398). -/
def sortAsc : List ℚ → List ℚ
  | [] => []
  | x :: xs => insertSorted x (sortAsc xs)

/-- Embedding of `Math.floor(amounts.length * 0.25)` (line 400), the Q1 index. -/
def q1Index (n : ℕ) : ℕ := n / 4

/-- Embedding of `Math.floor(amounts.length * 0.75)` (line 399), the Q3 index. -/
def q3Index (n : ℕ) : ℕ := n * 3 / 4

/-- The `outlierThreshold = q3 + 1.5 * iqr` of `detectSuspiciousExpenses`
(lines 398-402), with `q1`/`q3` read off the sorted amounts by index. -/
def outlierUpperBound (amounts : List ℚ) : ℚ :=
  let sorted := sortAsc amounts
  let q3 := sorted.getD (q3Index amounts.length) 0
  let q1 := sorted.getD (q1Index amounts.length) 0
  q3 + (3/2) * (q3 - q1)

/-- The outlier check of `detectSuspiciousExpenses` (lines 396-414): it only
runs when more than 5 expenses are in the window, and then flags the amounts
strictly above the IQR upper bound, in window order. -/
def detectOutliers (amounts : List ℚ) : List ℚ :=
  if 5 < amounts.length then
    amounts.filter (fun a => decide (outlierUpperBound amounts < a))
  else []

/-- The fixed category enumeration of `AIService` (lines 9-12). -/
inductive Category where
  | travel | food | supplies | software | hardware | training | entertainment | other
deriving DecidableEq

/-- Returns `true` iff the first list is an initial segment of the second. -/
def isPrefixList : List Char → List Char → Bool
  | [], _ => true
  | _ :: _, [] => false
  | x :: xs, y :: ys => x = y && isPrefixList xs ys

/-- Embedding of `haystack.includes(needle)`: contiguous-substring containment, as used by
`desc.includes(keyword)` in `fallbackCategorySuggestion` (line 129). -/
def containsSub (needle haystack : List Char) : Bool :=
  match haystack with
  | [] => needle.isEmpty
  | _ :: t => isPrefixList needle haystack || containsSub needle t

/-- The `categoryKeywords` table of `fallbackCategorySuggestion`
(lines 116-124), in declaration order. -/
def categoryKeywords : List (Category × List String) :=
  [(.travel, ["flight", "hotel", "uber", "taxi", "gas", "mileage", "rental", "airbnb", "trip", "travel"]),
   (.food, ["restaurant", "lunch", "dinner", "coffee", "meal", "catering", "starbucks", "food", "eat"]),
   (.supplies, ["paper", "pen", "office", "supplies", "stationery", "printer", "ink", "materials"]),
   (.software, ["subscription", "license", "saas", "software", "app", "service", "tool", "platform"]),
   (.hardware, ["computer", "laptop", "mouse", "keyboard", "monitor", "device", "equipment", "hardware"]),
   (.training, ["training", "course", "conference", "workshop", "certification", "learning", "education"]),
   (.entertainment, ["entertainment", "client", "team building", "event", "party", "celebration"])]

/-- One category's score in `fallbackCategorySuggestion` (lines 129-131):
`some (category, min(0.8, 0.3 + matches.length * 0.2))` when at least one
keyword occurs in the lower-cased description, `none` otherwise. -/
def catScore (desc : List Char) (p : Category × List String) : Option (Category × ℚ) :=
  let m := (p.2.filter (fun kw => containsSub kw.toList desc)).length
  if 0 < m then some (p.1, min (8/10) (3/10 + (m : ℚ) * (2/10))) else none

/-- One iteration of the `for ... of Object.entries(categoryKeywords)` loop of
`fallbackCategorySuggestion` (lines 128-140): the running best match is
replaced exactly when the category matches and its confidence strictly
exceeds the current best confidence. -/
def suggestStep (desc : List Char) (best : Category × ℚ) (p : Category × List String) : Category × ℚ :=
  match catScore desc p with
  | some q => if best.2 < q.2 then q else best
  | none => best

/-- Embedding of `AIService.fallbackCategorySuggestion` (lines 113-144), without the
`reasoning` string: fold of `suggestStep` over the keyword table, starting
from the default `{category: 'other', confidence: 0.1}`. -/
def fallbackCategorySuggestion (description : List Char) : Category × ℚ :=
  categoryKeywords.foldl (suggestStep (description.map lowerChar)) (Category.other, 1/10)

/-- The persisted `team.alertsSent` flags read and written by
`BudgetService.checkBudgetAlerts`. -/
structure AlertFlags where
  warning : Bool
  critical : Bool
deriving DecidableEq

/-- The two alert levels sent by `BudgetService.checkBudgetAlerts`. -/
inductive AlertType where
  | warning | critical
deriving DecidableEq

/-- The decision core of `BudgetService.checkBudgetAlerts` (lines 535-568),
for warning/critical thresholds `wt`/`ct` (defaults 80/100): given the
team's current `budgetUtilization` and persisted flags, it returns the new
flags and the list of alerts recorded in `alerts`.  `ok lvl` tells whether
the awaited `emailService.sendBudgetAlert` call RESOLVES for that level
(`true`) or throws (`false`): the `false` branch embeds the source's catch
blocks (lines 544-546 and 559-561), which are reached before the flag
assignment and the `alerts.push`.  Note that the repository's notifier never
rejects — `sendBudgetAlert` catches all delivery errors internally and
resolves `{success: false}`, a value `checkBudgetAlerts` ignores — so every
real execution, delivery failure included, instantiates `ok` with the
constantly-true oracle `notifierOk` below.  The trailing reset
(lines 565-568) clears both flags when utilization is below the warning
threshold. -/
def checkBudgetAlerts (wt ct : ℚ) (ok : AlertType → Bool) (util : ℚ) (flags : AlertFlags) :
    AlertFlags × List AlertType :=
  let r :=
    if ct ≤ util ∧ flags.critical = false then
      if ok .critical then ({ flags with critical := true }, [AlertType.critical])
      else (flags, [])
    else if wt ≤ util ∧ flags.warning = false then
      if ok .warning then ({ flags with warning := true }, [AlertType.warning])
      else (flags, [])
    else (flags, [])
  (if util < wt then { warning := false, critical := false } else r.1, r.2)

/-- The throw-oracle induced by `emailService.sendBudgetAlert`
(emailService.js lines 56-103) for a delivery outcome `delivered`: the
method's whole body is wrapped in try/catch and it always resolves — on a
delivery failure it resolves `{success: false, ...}` instead of rejecting —
so the awaited call in `checkBudgetAlerts` never throws, whatever the
delivery outcome; the resolved value is discarded by the caller. -/
def notifierOk (delivered : AlertType → Bool) : AlertType → Bool :=
  fun _ => true

/-- Successive evaluations of `checkBudgetAlerts` on one team: each
utilization in the list is fed in turn, the flags persisting between calls
(`team.save()`); the per-evaluation alert lists are collected in order. -/
def runBudgetAlerts (wt ct : ℚ) (ok : AlertType → Bool) :
    List ℚ → AlertFlags → AlertFlags × List (List AlertType)
  | [], flags => (flags, [])
  | u :: us, flags =>
      let r := checkBudgetAlerts wt ct ok u flags
      let rest := runBudgetAlerts wt ct ok us r.1
      (rest.1, r.2 :: rest.2)

/-- An approved expense as read by `BudgetService.calculateBudgetForecast`:
its calendar-day bucket (the `toISOString` date key, modelled by an integer
day index) and its amount. -/
structure DatedAmount where
  day : ℤ
  amount : ℚ
deriving DecidableEq

/-- The `avgDailySpending` of `calculateBudgetForecast` (lines 710-712):
`totalRecentSpending / Math.max(1, recentExpenses.length / 2)` — the divisor
is the source's "rough estimate" of days with data, half the number of
expenses. -/
def avgDailySpending (es : List DatedAmount) : ℚ :=
  ((es.map (fun e => e.amount)).sum) / max 1 ((es.length : ℚ) / 2)

/-- Modelled from the spec: the number of distinct calendar days in the
window that have at least one approved expense ("bucket approved expenses by
calendar day", `daysWithData`). -/
def specDaysWithData (es : List DatedAmount) : ℕ :=
  ((es.map (fun e => e.day)).dedup).length

/-- Modelled from the spec:
`avgDailySpend = totalRecentSpend / max(1, daysWithData)` with `daysWithData`
the distinct-day count. -/
def specAvgDailySpend (es : List DatedAmount) : ℚ :=
  ((es.map (fun e => e.amount)).sum) / max 1 ((specDaysWithData es : ℚ))

/-- The `direction` strings returned by
`BudgetService.calculateSpendingTrend`. -/
inductive TrendDirection where
  | insufficientData | increasing | decreasing | stable
deriving DecidableEq

/-- The `strength` values returned by `calculateSpendingTrend`: the numeric
`0` of the insufficient-data branch, or `'low'`/`'medium'`/`'high'`. -/
inductive TrendStrength where
  | zero | low | medium | high
deriving DecidableEq

/-- The record returned by `calculateSpendingTrend`; `percentageChange` is
absent (`none`) in the insufficient-data branch. -/
structure TrendResult where
  direction : TrendDirection
  strength : TrendStrength
  percentageChange : Option ℚ
deriving DecidableEq

/-- The `firstHalf` average of `calculateSpendingTrend` (lines 790-793):
average of `dailyTotals.slice(0, floor(n / 2))`. -/
def firstHalfAvg (l : List ℚ) : ℚ :=
  ((l.take (l.length / 2)).sum) / (((l.take (l.length / 2)).length : ℕ) : ℚ)

/-- The `secondHalf` average of `calculateSpendingTrend` (lines 791-794):
average of `dailyTotals.slice(floor(n / 2))`. -/
def secondHalfAvg (l : List ℚ) : ℚ :=
  ((l.drop (l.length / 2)).sum) / (((l.drop (l.length / 2)).length : ℕ) : ℚ)

/-- Embedding of `BudgetService.calculateSpendingTrend` (lines 784-811): fewer than 3
daily buckets give `insufficient_data`; otherwise the halves are compared,
`percentageChange = |difference| / Math.max(firstHalfAvg, 1) * 100`, the
direction changes only when `|difference| > firstHalfAvg * 0.1`, and the
strength cutoffs are applied to `percentageChange`. -/
def calculateSpendingTrend (dailyTotals : List ℚ) : TrendResult :=
  if dailyTotals.length < 3 then ⟨.insufficientData, .zero, none⟩
  else
    let difference := secondHalfAvg dailyTotals - firstHalfAvg dailyTotals
    let percentageChange := |difference| / max (firstHalfAvg dailyTotals) 1 * 100
    if |difference| > firstHalfAvg dailyTotals * (1/10) then
      ⟨if difference > 0 then .increasing else .decreasing,
       if percentageChange > 50 then .high
       else if percentageChange > 20 then .medium
       else .low,
       some percentageChange⟩
    else ⟨.stable, .low, some percentageChange⟩

/-- Modelled from the spec: the trend strength "from percentage change
magnitude (>50% high, >20% medium, else low)" — the magnitude of the change
of the second-half average relative to the first-half average. -/
def specTrendStrength (dailyTotals : List ℚ) : TrendStrength :=
  let pct := |secondHalfAvg dailyTotals - firstHalfAvg dailyTotals| / firstHalfAvg dailyTotals * 100
  if pct > 50 then .high else if pct > 20 then .medium else .low

theorem lev_nil_right : ∀ xs : List Char, lev xs [] = xs.length := by
  intro xs
  cases xs <;> simp [lev]

theorem lev_comm : ∀ xs ys : List Char, lev xs ys = lev ys xs := by
  intro xs
  induction xs with
  | nil =>
      intro ys
      rw [lev_nil_right]
      simp [lev]
  | cons x xs ih =>
      intro ys
      induction ys with
      | nil =>
          rw [lev_nil_right]
          simp [lev]
      | cons y ys ihy =>
          simp only [lev]
          rw [ih (y :: ys), ihy, ih ys]
          have hc : (if x = y then 0 else 1) = (if y = x then 0 else 1) := by
            rcases eq_or_ne x y with h | h
            · rw [if_pos h, if_pos h.symm]
            · rw [if_neg h, if_neg (Ne.symm h)]
          rw [hc]
          omega

/-- Appending `ts` to a string raises the edit distance to the original by at
most `ts.length` (each appended character is one insertion). -/
theorem lev_append_le : ∀ xs ts : List Char, lev xs (xs ++ ts) ≤ ts.length := by
  intro xs
  induction xs with
  | nil =>
      intro ts
      simp [lev]
  | cons x xs ih =>
      intro ts
      have h3 : lev (x :: xs) (x :: (xs ++ ts)) ≤ lev xs (xs ++ ts) := by
        simp only [lev, if_pos rfl]
        simp
      calc lev (x :: xs) ((x :: xs) ++ ts) = lev (x :: xs) (x :: (xs ++ ts)) := rfl
        _ ≤ lev xs (xs ++ ts) := h3
        _ ≤ ts.length := ih ts

theorem lev_self (xs : List Char) : lev xs xs = 0 := by
  have h := lev_append_le xs []
  simp at h
  exact h

theorem lev_le_max : ∀ xs ys : List Char, lev xs ys ≤ max xs.length ys.length := by
  intro xs
  induction xs with
  | nil =>
      intro ys
      simp [lev]
  | cons x xs ih =>
      intro ys
      induction ys with
      | nil =>
          rw [lev_nil_right]
          exact le_max_left _ _
      | cons y ys ihy =>
          have hsub : lev (x :: xs) (y :: ys) ≤ lev xs ys + (if x = y then 0 else 1) := by
            simp only [lev]
            omega
          have hxy : lev xs ys ≤ max xs.length ys.length := ih ys
          have hif : (if x = y then 0 else 1) ≤ 1 := by
            split <;> omega
          simp only [List.length_cons]
          omega

theorem check_below_warning (util : ℚ) (ok : AlertType → Bool) (f : AlertFlags)
    (h : util < 80) :
    checkBudgetAlerts 80 100 ok util f = (⟨false, false⟩, []) := by
  have h1 : ¬((100 : ℚ) ≤ util ∧ f.critical = false) := fun hc => absurd hc.1 (by linarith)
  have h2 : ¬((80 : ℚ) ≤ util ∧ f.warning = false) := fun hc => absurd hc.1 (by linarith)
  simp only [checkBudgetAlerts]
  rw [if_neg h1, if_neg h2, if_pos h]

theorem check_warning_blocked (util : ℚ) (ok : AlertType → Bool) (f : AlertFlags)
    (h80 : 80 ≤ util) (hnc : ¬((100 : ℚ) ≤ util ∧ f.critical = false))
    (hw : f.warning = true) :
    checkBudgetAlerts 80 100 ok util f = (f, []) := by
  have h2 : ¬((80 : ℚ) ≤ util ∧ f.warning = false) := fun hc => by
    rw [hw] at hc
    exact absurd hc.2 (by simp)
  simp only [checkBudgetAlerts]
  rw [if_neg hnc, if_neg h2, if_neg (not_lt.mpr h80)]

theorem check_warning_fires (util : ℚ) (ok : AlertType → Bool) (f : AlertFlags)
    (h80 : 80 ≤ util) (hnc : ¬((100 : ℚ) ≤ util ∧ f.critical = false))
    (hw : f.warning = false) (hok : ok .warning = true) :
    checkBudgetAlerts 80 100 ok util f = ({ f with warning := true }, [AlertType.warning]) := by
  simp only [checkBudgetAlerts]
  rw [if_neg hnc, if_pos (And.intro h80 hw), hok]
  simp [not_lt.mpr h80]

theorem check_critical_fires (util : ℚ) (ok : AlertType → Bool) (f : AlertFlags)
    (h100 : 100 ≤ util) (hc : f.critical = false) (hok : ok .critical = true) :
    checkBudgetAlerts 80 100 ok util f = ({ f with critical := true }, [AlertType.critical]) := by
  have h80 : (80 : ℚ) ≤ util := by linarith
  simp only [checkBudgetAlerts]
  rw [if_pos (And.intro h100 hc), hok]
  simp [not_lt.mpr h80]

theorem run_steady (ok : AlertType → Bool) (util : ℚ) (f : AlertFlags)
    (h : checkBudgetAlerts 80 100 ok util f = (f, [])) :
    ∀ n : ℕ, runBudgetAlerts 80 100 ok (List.replicate n util) f = (f, List.replicate n []) := by
  intro n
  induction n with
  | zero => simp [runBudgetAlerts]
  | succ n ih =>
      rw [List.replicate_succ, List.replicate_succ]
      simp only [runBudgetAlerts, h, ih]

theorem flatten_replicate_nil (n : ℕ) : (List.replicate n ([] : List AlertType)).flatten = [] := by
  induction n with
  | zero => rfl
  | succ n ih =>
      rw [List.replicate_succ]
      simp [ih]

/-- C1 counterexample: at a constant utilization of 100 (at the critical
threshold), starting from flags `{warning: false, critical: false}`, two
successive evaluations of the decision function emit TWO alert events — a
critical on the first evaluation and then a warning on the second (the
`else if` chain lets the warning branch fire once the critical flag is set) —
refuting the claim that exactly one event is emitted in total. -/
theorem C1_counterexample :
    (runBudgetAlerts 80 100 (fun _ => true) [100, 100] ⟨false, false⟩).2
        = [[AlertType.critical], [AlertType.warning]] ∧
      (runBudgetAlerts 80 100 (fun _ => true) [100, 100] ⟨false, false⟩).2.flatten.length = 2 ∧
      (runBudgetAlerts 80 100 (fun _ => true) [100, 100] ⟨false, false⟩).2.flatten.length ≠ 1 := by
  decide

/-- C1 amended: for a fixed utilization held constant across `n` evaluations
starting from flags `{false, false}` (with default thresholds 80/100 and a
succeeding notifier), the code emits at most one alert per alert TYPE, each
on the earliest possible evaluation: nothing when below the warning
threshold; exactly one warning event (on the first evaluation) when
`80 ≤ utilization < 100`; and when `utilization ≥ 100`, a critical event on
the first evaluation followed by one warning event on the second, with no
further events on any later evaluation. -/
theorem C1_amended (n : ℕ) (util : ℚ) :
    (util < 80 →
      (runBudgetAlerts 80 100 (fun _ => true) (List.replicate n util) ⟨false, false⟩).2.flatten
        = []) ∧
    (80 ≤ util → util < 100 → 1 ≤ n →
      (runBudgetAlerts 80 100 (fun _ => true) (List.replicate n util) ⟨false, false⟩).2.flatten
        = [AlertType.warning]) ∧
    (100 ≤ util → 2 ≤ n →
      (runBudgetAlerts 80 100 (fun _ => true) (List.replicate n util) ⟨false, false⟩).2.flatten
        = [AlertType.critical, AlertType.warning]) := by
  refine ⟨fun hlow => ?_, fun h80 h100 hn => ?_, fun h100 hn => ?_⟩
  · rw [run_steady _ _ _ (check_below_warning util _ ⟨false, false⟩ hlow) n]
    exact flatten_replicate_nil n
  · obtain ⟨k, rfl⟩ : ∃ k, n = k + 1 := ⟨n - 1, by omega⟩
    have hnc : ¬((100 : ℚ) ≤ util ∧ (⟨false, false⟩ : AlertFlags).critical = false) :=
      fun hc => absurd hc.1 (not_le.mpr h100)
    have step1 : checkBudgetAlerts 80 100 (fun _ => true) util ⟨false, false⟩
        = (⟨true, false⟩, [AlertType.warning]) :=
      check_warning_fires util (fun _ => true) ⟨false, false⟩ h80 hnc rfl rfl
    have hnc2 : ¬((100 : ℚ) ≤ util ∧ (⟨true, false⟩ : AlertFlags).critical = false) :=
      fun hc => absurd hc.1 (not_le.mpr h100)
    have hsteady :=
      run_steady (fun _ => true) util ⟨true, false⟩
        (check_warning_blocked util (fun _ => true) ⟨true, false⟩ h80 hnc2 rfl) k
    rw [List.replicate_succ]
    simp [runBudgetAlerts, step1, hsteady, flatten_replicate_nil]
  · obtain ⟨k, rfl⟩ : ∃ k, n = k + 2 := ⟨n - 2, by omega⟩
    have h80 : (80 : ℚ) ≤ util := by linarith
    have step1 : checkBudgetAlerts 80 100 (fun _ => true) util ⟨false, false⟩
        = (⟨false, true⟩, [AlertType.critical]) :=
      check_critical_fires util (fun _ => true) ⟨false, false⟩ h100 rfl rfl
    have hnc : ¬((100 : ℚ) ≤ util ∧ (⟨false, true⟩ : AlertFlags).critical = false) :=
      fun hc => by simpa using hc.2
    have step2 : checkBudgetAlerts 80 100 (fun _ => true) util ⟨false, true⟩
        = (⟨true, true⟩, [AlertType.warning]) :=
      check_warning_fires util (fun _ => true) ⟨false, true⟩ h80 hnc rfl rfl
    have hnc2 : ¬((100 : ℚ) ≤ util ∧ (⟨true, true⟩ : AlertFlags).critical = false) :=
      fun hc => by simpa using hc.2
    have hsteady :=
      run_steady (fun _ => true) util ⟨true, true⟩
        (check_warning_blocked util (fun _ => true) ⟨true, true⟩ h80 hnc2 rfl) k
    rw [List.replicate_succ, List.replicate_succ]
    simp [runBudgetAlerts, step1, step2, hsteady, flatten_replicate_nil]

/-- C1 witness: the amended statement evaluated at utilization 100 over two
evaluations. -/
theorem C1_witness :
    (runBudgetAlerts 80 100 (fun _ => true) (List.replicate 2 (100 : ℚ)) ⟨false, false⟩).2.flatten
      = [AlertType.critical, AlertType.warning] :=
  (C1_amended 2 100).2.2 (by decide) (by decide)

/-- C2: starting from flags `{false, false}` with default thresholds 80/100,
the utilization sequence `[85, 90, 100, 70, 90]` produces exactly the
per-evaluation events `[[warning], [], [critical], [], [warning]]` — a
warning at the first 85, nothing at 90, a critical at 100, nothing at 70,
and a fresh warning at the final 90 — and the evaluation at 70 resets both
flags to false. -/
theorem C2_alert_hysteresis :
    runBudgetAlerts 80 100 (fun _ => true) [85, 90, 100, 70, 90] ⟨false, false⟩
        = (⟨true, false⟩, [[AlertType.warning], [], [AlertType.critical], [], [AlertType.warning]]) ∧
      (runBudgetAlerts 80 100 (fun _ => true) [85, 90, 100, 70] ⟨false, false⟩).1
        = ⟨false, false⟩ := by
  decide

/-- C3: when the budget-alert evaluation decides to emit an alert and email
delivery fails, the corresponding flag is STILL set to true and the alert
recorded: `emailService.sendBudgetAlert` catches every delivery error and
resolves `{success: false}` instead of rejecting, and `checkBudgetAlerts`
discards the resolved value, so for EVERY delivery outcome `delivered` —
failure included — a due critical alert sets the critical flag and a due
warning alert sets the warning flag, exactly as on success; and a subsequent
evaluation at the same utilization does not re-send the same alert type. -/
theorem C3_flag_persists (delivered : AlertType → Bool) (util : ℚ) (f : AlertFlags) :
    (100 ≤ util → f.critical = false →
      checkBudgetAlerts 80 100 (notifierOk delivered) util f
        = (⟨f.warning, true⟩, [AlertType.critical])) ∧
    (80 ≤ util → util < 100 → f.warning = false →
      checkBudgetAlerts 80 100 (notifierOk delivered) util f
        = (⟨true, f.critical⟩, [AlertType.warning])) ∧
    (100 ≤ util →
      AlertType.critical ∉
        (checkBudgetAlerts 80 100 (notifierOk delivered) util ⟨f.warning, true⟩).2) ∧
    (80 ≤ util → util < 100 →
      (checkBudgetAlerts 80 100 (notifierOk delivered) util ⟨true, f.critical⟩).2 = []) := by
  refine ⟨fun h100 hc => ?_, fun h80 h100 hw => ?_, fun h100 => ?_, fun h80 h100 => ?_⟩
  · exact check_critical_fires util (notifierOk delivered) f h100 hc rfl
  · have hnc : ¬((100 : ℚ) ≤ util ∧ f.critical = false) :=
      fun hcon => absurd hcon.1 (not_le.mpr h100)
    exact check_warning_fires util (notifierOk delivered) f h80 hnc hw rfl
  · have h80 : (80 : ℚ) ≤ util := by linarith
    cases hw : f.warning with
    | false =>
        rw [check_warning_fires util (notifierOk delivered) ⟨false, true⟩ h80
          (fun hcon => by simpa using hcon.2) rfl rfl]
        decide
    | true =>
        rw [check_warning_blocked util (notifierOk delivered) ⟨true, true⟩ h80
          (fun hcon => by simpa using hcon.2) rfl]
        decide
  · have hnc : ¬((100 : ℚ) ≤ util ∧ (⟨true, f.critical⟩ : AlertFlags).critical = false) :=
      fun hcon => absurd hcon.1 (not_le.mpr h100)
    rw [check_warning_blocked util (notifierOk delivered) ⟨true, f.critical⟩ h80 hnc rfl]

/-- C3 witness: a failed delivery (`delivered` constantly false) at
utilization 100 still sets the critical flag and records the alert. -/
theorem C3_witness :
    checkBudgetAlerts 80 100 (notifierOk (fun _ => false)) 100 ⟨false, false⟩
      = (⟨false, true⟩, [AlertType.critical]) :=
  (C3_flag_persists (fun _ => false) 100 ⟨false, false⟩).1 (by decide) rfl

/-- C4 counterexample: three approved expenses of 10 on the same calendar
day. The number of distinct days with data is 1, so the claimed formula
gives `30 / max(1, 1) = 30`, but the code computes
`30 / max(1, 3/2) = 20`: `daysWithData` in the source is
`Math.max(1, recentExpenses.length / 2)`, not the distinct-day count. -/
theorem C4_counterexample :
    avgDailySpending [⟨0, 10⟩, ⟨0, 10⟩, ⟨0, 10⟩] = 20 ∧
      specDaysWithData [⟨0, 10⟩, ⟨0, 10⟩, ⟨0, 10⟩] = 1 ∧
      specAvgDailySpend [⟨0, 10⟩, ⟨0, 10⟩, ⟨0, 10⟩] = 30 ∧
      avgDailySpending [⟨0, 10⟩, ⟨0, 10⟩, ⟨0, 10⟩]
        ≠ specAvgDailySpend [⟨0, 10⟩, ⟨0, 10⟩, ⟨0, 10⟩] := by
  with_unfolding_all decide

/-- C4 amended: for a non-empty expense window the forecast's avgDailySpend
equals the total recent spend divided by `max(1, n / 2)` where `n` is the
NUMBER of approved expenses in the window (the source's "rough estimate" of
days with data), not the distinct-day count: concretely, for a single
expense it is the total spend, and for `n ≥ 2` it is
`2 * totalRecentSpend / n`. -/
theorem C4_amended (es : List DatedAmount) :
    (es.length = 1 → avgDailySpending es = (es.map (fun e => e.amount)).sum) ∧
    (2 ≤ es.length →
      avgDailySpending es = 2 * (es.map (fun e => e.amount)).sum / (es.length : ℚ)) := by
  constructor
  · intro h
    unfold avgDailySpending
    rw [h]
    rw [show ((1 : ℕ) : ℚ) / 2 = 1/2 by norm_num]
    rw [max_eq_left (by norm_num : (1 : ℚ)/2 ≤ 1)]
    simp
  · intro h
    unfold avgDailySpending
    have h2 : (2 : ℚ) ≤ (es.length : ℚ) := by exact_mod_cast h
    have hne : (es.length : ℚ) ≠ 0 := by linarith
    rw [max_eq_right (by linarith : (1 : ℚ) ≤ (es.length : ℚ) / 2)]
    field_simp
    ring

/-- C4 witness: the amended statement evaluated on a two-expense window. -/
theorem C4_witness :
    avgDailySpending [⟨0, 10⟩, ⟨1, 20⟩]
      = 2 * (([⟨0, 10⟩, ⟨1, 20⟩] : List DatedAmount).map (fun e => e.amount)).sum
          / ((([⟨0, 10⟩, ⟨1, 20⟩] : List DatedAmount).length : ℕ) : ℚ) :=
  (C4_amended [⟨0, 10⟩, ⟨1, 20⟩]).2 (by decide)

/-- C5 counterexample: on the daily totals `[1/2, 1, 1]` the first-half
average is 1/2 and the second-half average is 1, so the percentage-change
magnitude is 100% and the claimed `>50% ⇒ high` rule requires strength
`high`; the code divides by `Math.max(firstHalfAvg, 1) = 1` instead of by
the first-half average, obtains 50, and returns `medium`. -/
theorem C5_counterexample :
    (calculateSpendingTrend [1/2, 1, 1]).strength = TrendStrength.medium ∧
      specTrendStrength [1/2, 1, 1] = TrendStrength.high ∧
      (calculateSpendingTrend [1/2, 1, 1]).strength ≠ specTrendStrength [1/2, 1, 1] ∧
      |secondHalfAvg [1/2, 1, 1] - firstHalfAvg [1/2, 1, 1]| / firstHalfAvg [1/2, 1, 1] * 100
        = 100 := by
  with_unfolding_all decide

/-- C5 amended: the function `calculateSpendingTrend` returns `insufficient_data` for
fewer than 3 daily buckets; for positive first-half average the direction
follows the 10% half-split rule (increasing iff the second-half average
exceeds the first-half average by more than 10%, decreasing iff it is more
than 10% below, stable otherwise); the `>50%`/`>20%` strength cutoffs are
applied to `|difference| / max(firstHalfAvg, 1) * 100` — which equals the
percentage-change magnitude only when `firstHalfAvg ≥ 1`; and the daily
totals `[10,10,10,50,50,50]` yield direction `increasing` with strength
`high` (percentage change 400). -/
theorem C5_amended (l : List ℚ) :
    (l.length < 3 →
      calculateSpendingTrend l = ⟨.insufficientData, .zero, none⟩) ∧
    (3 ≤ l.length → 0 < firstHalfAvg l →
      (((calculateSpendingTrend l).direction = .increasing ↔
          firstHalfAvg l * (11/10) < secondHalfAvg l) ∧
        ((calculateSpendingTrend l).direction = .decreasing ↔
          secondHalfAvg l < firstHalfAvg l * (9/10)) ∧
        ((calculateSpendingTrend l).direction = .stable ↔
          |secondHalfAvg l - firstHalfAvg l| ≤ firstHalfAvg l * (1/10)))) ∧
    (3 ≤ l.length → 1 ≤ firstHalfAvg l →
      (calculateSpendingTrend l).strength =
        (if 50 < |secondHalfAvg l - firstHalfAvg l| / firstHalfAvg l * 100 then .high
         else if 20 < |secondHalfAvg l - firstHalfAvg l| / firstHalfAvg l * 100 then .medium
         else .low)) ∧
    calculateSpendingTrend [10, 10, 10, 50, 50, 50] = ⟨.increasing, .high, some 400⟩ := by
  refine ⟨fun h => ?_, fun h3 hpos => ?_, fun h3 hge1 => ?_, ?_⟩
  · unfold calculateSpendingTrend
    rw [if_pos h]
  · simp only [calculateSpendingTrend, if_neg (not_lt.mpr h3)]
    set a := firstHalfAvg l with ha
    set b := secondHalfAvg l with hb
    by_cases hbig : a * (1/10) < |b - a|
    · rw [if_pos hbig]
      by_cases hup : 0 < b - a
      · rw [if_pos hup]
        have habs : |b - a| = b - a := abs_of_pos hup
        rw [habs] at hbig
        refine ⟨?_, ?_, ?_⟩
        · simp only [eq_self_iff_true, true_iff]
          linarith
        · constructor
          · intro hcon
            exact absurd hcon (by simp)
          · intro hcon
            exact absurd hcon (by linarith)
        · constructor
          · intro hcon
            exact absurd hcon (by simp)
          · intro hcon
            rw [habs] at hcon
            exact absurd hcon (by linarith)
      · rw [if_neg hup]
        have hdown : b - a ≤ 0 := not_lt.mp hup
        have habs : |b - a| = -(b - a) := abs_of_nonpos hdown
        rw [habs] at hbig
        refine ⟨?_, ?_, ?_⟩
        · constructor
          · intro hcon
            exact absurd hcon (by simp)
          · intro hcon
            exact absurd hcon (by linarith)
        · constructor
          · intro _
            linarith
          · intro _
            rfl
        · constructor
          · intro hcon
            exact absurd hcon (by simp)
          · intro hcon
            rw [habs] at hcon
            exact absurd hcon (by linarith)
    · rw [if_neg hbig]
      have hle : |b - a| ≤ a * (1/10) := not_lt.mp hbig
      have hup : b - a ≤ |b - a| := le_abs_self _
      have hdown : -(b - a) ≤ |b - a| := neg_le_abs _
      refine ⟨?_, ?_, ?_⟩
      · constructor
        · intro hcon
          exact absurd hcon (by simp)
        · intro hcon
          exact absurd hcon (by nlinarith)
      · constructor
        · intro hcon
          exact absurd hcon (by simp)
        · intro hcon
          exact absurd hcon (by nlinarith)
      · simp only [eq_self_iff_true, true_iff]
        exact hle
  · simp only [calculateSpendingTrend, if_neg (not_lt.mpr h3)]
    have hpos : (0 : ℚ) < firstHalfAvg l := by linarith
    have hmax : max (firstHalfAvg l) 1 = firstHalfAvg l := max_eq_left hge1
    rw [hmax]
    set a := firstHalfAvg l with ha
    set b := secondHalfAvg l with hb
    by_cases hbig : a * (1/10) < |b - a|
    · rw [if_pos hbig]
    · rw [if_neg hbig]
      have hle : |b - a| ≤ a * (1/10) := not_lt.mp hbig
      have hq : |b - a| / a ≤ 1/10 := by
        rw [div_le_iff₀ hpos]
        linarith
      have hpct : |b - a| / a * 100 ≤ 10 := by
        nlinarith
      rw [if_neg (by linarith), if_neg (by linarith)]
  · with_unfolding_all decide

/-- C5 witness: the amended statement's insufficient-data clause at a
two-element list. -/
theorem C5_witness :
    calculateSpendingTrend [0, 0] = ⟨.insufficientData, .zero, none⟩ :=
  (C5_amended [0, 0]).1 (by decide)

/-- C6: the text-similarity function is symmetric, equals 1 on identical
inputs, and for non-empty inputs its result lies in `[0, 1]`. -/
theorem C6_similarity :
    (∀ a b : List Char, calculateTextSimilarity a b = calculateTextSimilarity b a) ∧
    (∀ a : List Char, calculateTextSimilarity a a = 1) ∧
    (∀ a b : List Char, a ≠ [] → b ≠ [] →
      0 ≤ calculateTextSimilarity a b ∧ calculateTextSimilarity a b ≤ 1) := by
  refine ⟨fun a b => ?_, fun a => ?_, fun a b hna hnb => ?_⟩
  · unfold calculateTextSimilarity
    by_cases hb : b.length = 0 <;> by_cases ha : a.length = 0 <;>
      simp [ha, hb, lev_comm a b, Nat.max_comm a.length b.length]
  · by_cases ha : a.length = 0
    · simp [calculateTextSimilarity, ha]
    · simp [calculateTextSimilarity, ha, lev_self]
  · have hb0 : b.length ≠ 0 := fun h => hnb (List.length_eq_zero.mp h)
    have ha0 : a.length ≠ 0 := fun h => hna (List.length_eq_zero.mp h)
    unfold calculateTextSimilarity
    rw [if_neg hb0, if_neg ha0]
    have hMpos : 0 < max a.length b.length := by
      have : 0 < a.length := Nat.pos_of_ne_zero ha0
      omega
    have hMQ : (0 : ℚ) < ((max a.length b.length : ℕ) : ℚ) := by exact_mod_cast hMpos
    have hdM : ((lev a b : ℕ) : ℚ) ≤ ((max a.length b.length : ℕ) : ℚ) := by
      exact_mod_cast lev_le_max a b
    have hd0 : (0 : ℚ) ≤ ((lev a b : ℕ) : ℚ) := by positivity
    have hq1 : ((lev a b : ℕ) : ℚ) / ((max a.length b.length : ℕ) : ℚ) ≤ 1 :=
      (div_le_one hMQ).mpr hdM
    have hq0 : (0 : ℚ) ≤ ((lev a b : ℕ) : ℚ) / ((max a.length b.length : ℕ) : ℚ) :=
      div_nonneg hd0 hMQ.le
    constructor
    · linarith
    · linarith

/-- C6 witness: the bounds clause evaluated at two concrete non-empty
strings. -/
theorem C6_witness :
    0 ≤ calculateTextSimilarity ['a'] ['b'] ∧ calculateTextSimilarity ['a'] ['b'] ≤ 1 :=
  C6_similarity.2.2 ['a'] ['b'] (by decide) (by decide)

/-- C10: at the empty-string edge cases the similarity is 1 when both
strings are empty and 0 when exactly one of the two is empty (the source's
early returns before the DP matrix is built). -/
theorem C10_similarity_empty :
    calculateTextSimilarity [] [] = 1 ∧
      (∀ a : List Char, a ≠ [] →
        calculateTextSimilarity a [] = 0 ∧ calculateTextSimilarity [] a = 0) := by
  constructor
  · decide
  · intro a ha
    have ha0 : a.length ≠ 0 := fun h => ha (List.length_eq_zero.mp h)
    constructor
    · simp [calculateTextSimilarity, ha0]
    · simp [calculateTextSimilarity, ha0]

/-- C10 witness: the one-sided-empty clause evaluated at a concrete
non-empty string. -/
theorem C10_witness :
    calculateTextSimilarity ['x'] [] = 0 ∧ calculateTextSimilarity [] ['x'] = 0 :=
  C10_similarity_empty.2 ['x'] (by decide)

set_option maxRecDepth 8000 in
/-- C7: the outlier check is skipped entirely (no flags) when the window has
at most 5 expenses; with more than 5 expenses exactly the amounts strictly
above `Q3 + 1.5 * (Q3 - Q1)` (quartiles read by index from the sorted
amounts) are flagged; `[10,12,11,13,9,500]` flags exactly `500`, and
`[10,12,11,13,9]` (5 items) flags nothing. -/
theorem C7_outliers :
    (∀ amounts : List ℚ, amounts.length ≤ 5 → detectOutliers amounts = []) ∧
    (∀ (amounts : List ℚ) (x : ℚ), 5 < amounts.length →
      (x ∈ detectOutliers amounts ↔ x ∈ amounts ∧ outlierUpperBound amounts < x)) ∧
    detectOutliers [10, 12, 11, 13, 9, 500] = [500] ∧
    detectOutliers [10, 12, 11, 13, 9] = [] := by
  refine ⟨fun amounts h => ?_, fun amounts x h => ?_, ?_, ?_⟩
  · unfold detectOutliers
    rw [if_neg (not_lt.mpr h)]
  · unfold detectOutliers
    rw [if_pos h]
    simp [List.mem_filter]
  · with_unfolding_all decide
  · with_unfolding_all decide

/-- C7 witness: the skip clause evaluated on a one-element window. -/
theorem C7_witness : detectOutliers [1] = [] :=
  C7_outliers.1 [1] (by decide)

/-- C8: a pair of expenses in the window is recorded as a duplicate finding
exactly when their amounts differ by less than 0.01, their dates are within
7 days, and the similarity of the lower-cased descriptions exceeds 0.7; the
recorded confidence is that similarity; and the concrete pair (amount 50
both, 2 days apart, "Team lunch" / "Team Lunch ") is flagged with
confidence above 0.7. -/
theorem C8_duplicates :
    (∀ e1 e2 : ExpenseRec, (duplicateFinding e1 e2).isSome = true ↔
      (|e1.amount - e2.amount| < 1/100 ∧ timeDiffDays e1 e2 ≤ 7 ∧
        7/10 < descSimilarity e1 e2)) ∧
    (∀ (e1 e2 : ExpenseRec) (c : ℚ), duplicateFinding e1 e2 = some c →
      c = descSimilarity e1 e2) ∧
    (∃ c : ℚ, duplicateFinding ⟨50, 2 * 86400000, "Team lunch".toList⟩
        ⟨50, 0, "Team Lunch ".toList⟩ = some c ∧ 7/10 < c) := by
  have hiff : ∀ e1 e2 : ExpenseRec, (duplicateFinding e1 e2).isSome = true ↔
      (|e1.amount - e2.amount| < 1/100 ∧ timeDiffDays e1 e2 ≤ 7 ∧
        7/10 < descSimilarity e1 e2) := by
    intro e1 e2
    unfold duplicateFinding
    split_ifs with h1 h2
    · simp only [Option.isSome_some, true_iff]
      exact ⟨h1, h2.1, h2.2⟩
    · simp only [Option.isSome_none]
      constructor
      · intro hcon
        exact absurd hcon (by simp)
      · intro hcon
        exact absurd ⟨hcon.2.1, hcon.2.2⟩ h2
    · simp only [Option.isSome_none]
      constructor
      · intro hcon
        exact absurd hcon (by simp)
      · intro hcon
        exact absurd hcon.1 h1
  refine ⟨hiff, fun e1 e2 c h => ?_, ?_⟩
  · unfold duplicateFinding at h
    split_ifs at h with h1 h2
    · exact (Option.some.injEq _ _ ▸ h).symm
  · have hm1 : ("Team lunch".toList).map lowerChar = "team lunch".toList := by decide
    have hm2 : ("Team Lunch ".toList).map lowerChar = "team lunch ".toList := by decide
    have happ : "team lunch".toList ++ [' '] = "team lunch ".toList := by decide
    have hlev : lev "team lunch".toList "team lunch ".toList ≤ 1 := by
      have h := lev_append_le "team lunch".toList [' ']
      rw [happ] at h
      simpa using h
    have hlevQ : ((lev "team lunch".toList "team lunch ".toList : ℕ) : ℚ) ≤ 1 := by
      exact_mod_cast hlev
    have hlev0 : (0 : ℚ) ≤ ((lev "team lunch".toList "team lunch ".toList : ℕ) : ℚ) := by
      positivity
    have hsim : descSimilarity ⟨50, 2 * 86400000, "Team lunch".toList⟩
        ⟨50, 0, "Team Lunch ".toList⟩
        = 1 - ((lev "team lunch".toList "team lunch ".toList : ℕ) : ℚ) / 11 := by
      unfold descSimilarity
      simp only
      rw [hm1, hm2]
      unfold calculateTextSimilarity
      rw [if_neg (show ¬("team lunch ".toList.length = 0) by decide),
        if_neg (show ¬("team lunch".toList.length = 0) by decide),
        show max "team lunch".toList.length "team lunch ".toList.length = 11 by decide]
      norm_num
    have hsimGt : 7/10 < descSimilarity ⟨50, 2 * 86400000, "Team lunch".toList⟩
        ⟨50, 0, "Team Lunch ".toList⟩ := by
      rw [hsim]
      linarith
    have hc1 : |(⟨50, 2 * 86400000, "Team lunch".toList⟩ : ExpenseRec).amount
        - (⟨50, 0, "Team Lunch ".toList⟩ : ExpenseRec).amount| < 1/100 := by
      norm_num
    have hc2 : timeDiffDays (⟨50, 2 * 86400000, "Team lunch".toList⟩ : ExpenseRec)
        ⟨50, 0, "Team Lunch ".toList⟩ ≤ 7 := by
      unfold timeDiffDays
      norm_num
    refine ⟨descSimilarity ⟨50, 2 * 86400000, "Team lunch".toList⟩
      ⟨50, 0, "Team Lunch ".toList⟩, ?_, hsimGt⟩
    unfold duplicateFinding
    rw [if_pos hc1, if_pos (And.intro hc2 hsimGt)]

/-- C8 witness: the recording criterion evaluated on a concrete identical
pair. -/
theorem C8_witness :
    (duplicateFinding ⟨1, 0, ['a', 'b']⟩ ⟨1, 0, ['a', 'b']⟩).isSome = true :=
  (C8_duplicates.1 ⟨1, 0, ['a', 'b']⟩ ⟨1, 0, ['a', 'b']⟩).mpr
    (by with_unfolding_all decide)

theorem suggestStep_ge (d : List Char) (b : Category × ℚ) (p : Category × List String) :
    b.2 ≤ (suggestStep d b p).2 := by
  unfold suggestStep
  cases hc : catScore d p with
  | none => exact le_refl _
  | some q =>
      show b.2 ≤ (if b.2 < q.2 then q else b).2
      split_ifs with h
      · exact le_of_lt h
      · exact le_refl _

theorem suggestFold_ge (d : List Char) :
    ∀ (l : List (Category × List String)) (b : Category × ℚ),
      (∀ p ∈ l, ∀ q, catScore d p = some q → q.2 ≤ b.2) →
      l.foldl (suggestStep d) b = b := by
  intro l
  induction l with
  | nil =>
      intro b _
      rfl
  | cons p rest ih =>
      intro b h
      rw [List.foldl_cons]
      have hstep : suggestStep d b p = b := by
        unfold suggestStep
        cases hc : catScore d p with
        | none => rfl
        | some q =>
            show (if b.2 < q.2 then q else b) = b
            rw [if_neg (not_lt.mpr (h p (List.mem_cons_self p rest) q hc))]
      rw [hstep]
      exact ih b (fun p' hp' q' hq' => h p' (List.mem_cons_of_mem p hp') q' hq')

theorem suggestFold_mono (d : List Char) :
    ∀ (l : List (Category × List String)) (b : Category × ℚ),
      b.2 ≤ (l.foldl (suggestStep d) b).2 := by
  intro l
  induction l with
  | nil =>
      intro b
      exact le_refl _
  | cons p rest ih =>
      intro b
      rw [List.foldl_cons]
      exact le_trans (suggestStep_ge d b p) (ih (suggestStep d b p))

theorem suggestFold_sound (d : List Char) :
    ∀ (l : List (Category × List String)) (b : Category × ℚ),
      l.foldl (suggestStep d) b = b ∨
        ∃ p ∈ l, catScore d p = some (l.foldl (suggestStep d) b) := by
  intro l
  induction l with
  | nil =>
      intro b
      left
      rfl
  | cons p rest ih =>
      intro b
      have hstep : suggestStep d b p = b ∨ catScore d p = some (suggestStep d b p) := by
        unfold suggestStep
        cases hc : catScore d p with
        | none =>
            left
            rfl
        | some q =>
            show (if b.2 < q.2 then q else b) = b ∨
              some q = some (if b.2 < q.2 then q else b)
            split_ifs with h
            · right
              rfl
            · left
              rfl
      rw [List.foldl_cons]
      rcases hstep with h | h
      · rw [h]
        rcases ih b with h' | ⟨p', hp', hs⟩
        · left
          exact h'
        · right
          exact ⟨p', List.mem_cons_of_mem p hp', hs⟩
      · rcases ih (suggestStep d b p) with h' | ⟨p', hp', hs⟩
        · right
          refine ⟨p, List.mem_cons_self p rest, ?_⟩
          rw [h']
          exact h
        · right
          exact ⟨p', List.mem_cons_of_mem p hp', hs⟩

theorem suggestFold_max (d : List Char) :
    ∀ (l : List (Category × List String)) (b : Category × ℚ)
      (p : Category × List String) (q : Category × ℚ),
      p ∈ l → catScore d p = some q → q.2 ≤ (l.foldl (suggestStep d) b).2 := by
  intro l
  induction l with
  | nil =>
      intro b p q hp _
      exact absurd hp (List.not_mem_nil p)
  | cons hd rest ih =>
      intro b p q hp hq
      rcases List.mem_cons.mp hp with rfl | hmem
      · rw [List.foldl_cons]
        have h1 : q.2 ≤ (suggestStep d b p).2 := by
          unfold suggestStep
          rw [hq]
          show q.2 ≤ (if b.2 < q.2 then q else b).2
          split_ifs with h
          · exact le_refl _
          · exact not_lt.mp h
        exact le_trans h1 (suggestFold_mono d rest (suggestStep d b p))
      · rw [List.foldl_cons]
        exact ih (suggestStep d b hd) p q hmem hq

theorem suggestFold_firstMax (d : List Char) (l1 l2 : List (Category × List String))
    (p : Category × List String) (b q : Category × ℚ)
    (hp : catScore d p = some q) (hb : b.2 < q.2)
    (h1 : ∀ p' ∈ l1, ∀ q', catScore d p' = some q' → q'.2 < q.2)
    (h2 : ∀ p' ∈ l2, ∀ q', catScore d p' = some q' → q'.2 ≤ q.2) :
    (l1 ++ p :: l2).foldl (suggestStep d) b = q := by
  rw [List.foldl_append]
  have hb1 : (l1.foldl (suggestStep d) b).2 < q.2 := by
    rcases suggestFold_sound d l1 b with h | ⟨p', hp', hs⟩
    · rw [h]
      exact hb
    · exact h1 p' hp' _ hs
  have hstep : suggestStep d (l1.foldl (suggestStep d) b) p = q := by
    unfold suggestStep
    rw [hp]
    show (if (l1.foldl (suggestStep d) b).2 < q.2 then q
      else l1.foldl (suggestStep d) b) = q
    rw [if_pos hb1]
  rw [List.foldl_cons, hstep]
  exact suggestFold_ge d l2 q h2

theorem catScore_ge_half (d : List Char) (p : Category × List String) (q : Category × ℚ)
    (h : catScore d p = some q) : 1/2 ≤ q.2 := by
  simp only [catScore] at h
  split_ifs at h with hm
  · obtain rfl := Option.some_inj.mp h
    have hm1 : (1 : ℚ) ≤ (((p.2.filter (fun kw => containsSub kw.toList d)).length : ℕ) : ℚ) := by
      exact_mod_cast hm
    refine le_min (by norm_num) ?_
    linarith

/-- C9: the fallback keyword scorer returns `(other, 0.1)` when no keyword
of any category occurs in the lower-cased description; otherwise its result
dominates the confidence `min(0.8, 0.3 + matches * 0.2)` of every matching
category, and whenever a category is the FIRST (in declaration order) to
attain the maximal confidence — every earlier matching category scoring
strictly less and every later one no more — the scorer returns exactly that
category with that confidence (so ties keep the first encountered); in
particular "Flight to client site" yields `(travel, 0.5)` with the
confidence inside `[0.3, 0.8]`. -/
theorem C9_fallback :
    (∀ desc : List Char,
      (∀ p ∈ categoryKeywords, catScore (desc.map lowerChar) p = none) →
      fallbackCategorySuggestion desc = (Category.other, 1/10)) ∧
    (∀ (desc : List Char) (p : Category × List String) (q : Category × ℚ),
      p ∈ categoryKeywords → catScore (desc.map lowerChar) p = some q →
      q.2 ≤ (fallbackCategorySuggestion desc).2) ∧
    (∀ (desc : List Char) (l1 l2 : List (Category × List String))
        (p : Category × List String) (q : Category × ℚ),
      categoryKeywords = l1 ++ p :: l2 →
      catScore (desc.map lowerChar) p = some q →
      (∀ p' ∈ l1, ∀ q', catScore (desc.map lowerChar) p' = some q' → q'.2 < q.2) →
      (∀ p' ∈ l2, ∀ q', catScore (desc.map lowerChar) p' = some q' → q'.2 ≤ q.2) →
      fallbackCategorySuggestion desc = q) ∧
    (fallbackCategorySuggestion "Flight to client site".toList = (Category.travel, 1/2) ∧
      (3/10 : ℚ) ≤ 1/2 ∧ (1/2 : ℚ) ≤ 8/10) := by
  refine ⟨fun desc h => ?_, fun desc p q hp hq => ?_, fun desc l1 l2 p q heq hp h1 h2 => ?_, ?_⟩
  · unfold fallbackCategorySuggestion
    refine suggestFold_ge _ categoryKeywords _ (fun p hp q hq => ?_)
    rw [h p hp] at hq
    exact absurd hq (by simp)
  · unfold fallbackCategorySuggestion
    exact suggestFold_max _ categoryKeywords _ p q hp hq
  · unfold fallbackCategorySuggestion
    rw [heq]
    refine suggestFold_firstMax _ l1 l2 p (Category.other, 1/10) q hp ?_ h1 h2
    have := catScore_ge_half _ p q hp
    show (1 : ℚ)/10 < q.2
    linarith
  · constructor
    · with_unfolding_all decide
    · norm_num

/-- C9 witness: the no-keyword clause evaluated on a description that
matches nothing. -/
theorem C9_witness :
    fallbackCategorySuggestion "zzzz".toList = (Category.other, 1/10) :=
  C9_fallback.1 "zzzz".toList (by with_unfolding_all decide)
